import Mathlib

/-!
Shallow embedding of `xMapxIntake.py`, a legal-case intake pipeline:
judgment-PDF tagging (`process_xjmtr`), a defendant lookup against a
database table (`fetch_defendants`), spreadsheet classification
(`process_excel_file` / `determine_llcode`), and file routing
(`move_files`).  Strings are modelled as Lean `String`, with the Python
string primitives re-implemented over `List Char` so that everything is
kernel-computable; SQL `NULL` is `Option.none`; the database table and
directory listings are Lean lists in the order the external system
returns them.
-/

set_option autoImplicit false

namespace XMapx

/-- Python `str.lower()` (ASCII case folding, which is all the data uses). -/
def pyLower (s : String) : String := ⟨s.toList.map Char.toLower⟩

/-- Python `s.endswith(suf)`. -/
def pyEndsWith (s suf : String) : Bool := suf.toList.isSuffixOf s.toList

/-- Python `sub in s` (substring containment). -/
def pyContains (s sub : String) : Bool := decide (sub.toList <:+: s.toList)

/-- Python `str.isdigit()`: non-empty and every character a decimal digit. -/
def pyIsdigit (s : String) : Bool := !s.toList.isEmpty && s.toList.all Char.isDigit

/-- Python `str.strip()`: remove leading and trailing whitespace. -/
def pyStrip (s : String) : String :=
  ⟨((s.toList.dropWhile Char.isWhitespace).reverse.dropWhile Char.isWhitespace).reverse⟩

/-- SQL `LTRIM(RTRIM(x))`: remove leading and trailing space characters. -/
def sqlTrim (s : String) : String :=
  ⟨((s.toList.dropWhile (· = ' ')).reverse.dropWhile (· = ' ')).reverse⟩

/-- Python `s.replace(c, d)` for a single-character pattern. -/
def pyReplaceChar (c d : Char) (s : String) : String :=
  ⟨s.toList.map (fun x => if x = c then d else x)⟩

/-- Python `s.split(sep)` for a single-character separator (always
returns a non-empty list; `"".split(sep) == [""]`). -/
def pySplitChar (sep : Char) : List Char → List (List Char)
  | [] => [[]]
  | c :: cs =>
    if c = sep then [] :: pySplitChar sep cs
    else
      match pySplitChar sep cs with
      | [] => [[c]]
      | p :: ps => (c :: p) :: ps

/-- Python truthiness of an optional string (`None` and `""` are falsy):
this is what `if matched_file_no:` and `if llcode:` test. -/
def truthyOpt : Option String → Bool
  | none => false
  | some s => s ≠ ""

/-- Python `list.index(x)`: index of the first occurrence (only ever
called under an `x in list` guard in the source). -/
def pyIndex (x : Option String) : List (Option String) → Nat
  | [] => 0
  | y :: l => if y = x then 0 else pyIndex x l + 1

/-! ## Database model and `fetch_defendants` -/

/-- A row of the external `dbo.MASTER` table: `FileNo` plus three
nullable defendant-name columns. -/
structure MasterRow where
  FileNo : String
  DEFENDANT_1 : Option String
  DEFENDANT_2 : Option String
  DEFENDANT_3 : Option String
deriving DecidableEq, Repr

/-- The result tuple of `fetch_defendants`: `(file_no, d1, d2, d3)`,
each component `None` in the no-match sentinel. -/
structure FetchResult where
  fileNo : Option String
  d1 : Option String
  d2 : Option String
  d3 : Option String
deriving DecidableEq, Repr

/-- The SQL query of `fetch_defendants`: rows with at least one non-null
defendant, each defendant column passed through `LTRIM(RTRIM(·))`,
in database order. -/
def queryRows (db : List MasterRow) :
    List (String × Option String × Option String × Option String) :=
  (db.filter (fun r =>
      r.DEFENDANT_1.isSome || r.DEFENDANT_2.isSome || r.DEFENDANT_3.isSome)).map
    (fun r => (r.FileNo, r.DEFENDANT_1.map sqlTrim, r.DEFENDANT_2.map sqlTrim,
               r.DEFENDANT_3.map sqlTrim))

/-- The loop condition `if person_served in [d1, d2, d3]` of
`fetch_defendants` (a Python string never equals `None`). -/
def rowMatches (ps : String)
    (q : String × Option String × Option String × Option String) : Bool :=
  q.2.1 = some ps || q.2.2.1 = some ps || q.2.2.2 = some ps

/-- The function `fetch_defendants(person_served)`: scan the query results in order,
return the first row one of whose defendant slots equals the person
served; `(None, None, None, None)` when none does. -/
def fetch_defendants (db : List MasterRow) (person_served : String) : FetchResult :=
  match (queryRows db).find? (rowMatches person_served) with
  | some (fn, d1, d2, d3) => ⟨some fn, d1, d2, d3⟩
  | none => ⟨none, none, none, none⟩

/-- Lemma: `List.find?` returns an element at some index whose predecessors all
fail the predicate. -/
theorem find?_first_index {α : Type _} (p : α → Bool) :
    ∀ (l : List α) (a : α), l.find? p = some a →
      ∃ i, l.get? i = some a ∧ p a = true ∧
        ∀ j, j < i → ∀ b, l.get? j = some b → p b = false := by
  intro l
  induction l with
  | nil => intro a h; simp at h
  | cons x xs ih =>
    intro a h
    by_cases hx : p x
    · rw [List.find?_cons_of_pos _ (by simpa using hx)] at h
      obtain rfl := Option.some.inj h
      exact ⟨0, by simp, by simpa using hx, by intro j hj; omega⟩
    · rw [List.find?_cons_of_neg _ (by simpa using hx)] at h
      obtain ⟨i, hg, hp, hmin⟩ := ih a h
      refine ⟨i + 1, by simpa using hg, hp, ?_⟩
      intro j hj b hb
      cases j with
      | zero =>
        simp [List.get?] at hb
        subst hb
        simpa using hx
      | succ j' => exact hmin j' (by omega) b (by simpa using hb)

/-- C6: `fetch_defendants` scans the query results in database order and
returns the first case whose (trimmed) defendant slots contain an exact
match to the input name; when no row matches — in particular when the
query returns no rows — it returns the all-`None` sentinel. -/
theorem fetch_defendants_first_match (db : List MasterRow) (ps : String) :
    ((∀ q ∈ queryRows db, rowMatches ps q = false) →
        fetch_defendants db ps = ⟨none, none, none, none⟩) ∧
    (∀ fn d1 d2 d3, fetch_defendants db ps = ⟨some fn, d1, d2, d3⟩ →
        ∃ i, (queryRows db).get? i = some (fn, d1, d2, d3) ∧
          rowMatches ps (fn, d1, d2, d3) = true ∧
          ∀ j, j < i → ∀ q, (queryRows db).get? j = some q →
            rowMatches ps q = false) := by
  constructor
  · intro h
    have hnone : (queryRows db).find? (rowMatches ps) = none := by
      rw [List.find?_eq_none]
      intro x hx
      simp [h x hx]
    simp [fetch_defendants, hnone]
  · intro fn d1 d2 d3 hfd
    unfold fetch_defendants at hfd
    cases hq : (queryRows db).find? (rowMatches ps) with
    | none => rw [hq] at hfd; simp at hfd
    | some q =>
      rw [hq] at hfd
      obtain ⟨qf, qd1, qd2, qd3⟩ := q
      simp only [FetchResult.mk.injEq, Option.some.injEq] at hfd
      obtain ⟨rfl, rfl, rfl, rfl⟩ := hfd
      obtain ⟨i, hg, hp, hmin⟩ := find?_first_index (rowMatches ps) _ _ hq
      exact ⟨i, hg, hp, hmin⟩

/-- Witness for C6: a database whose only case does not list the person
served yields the sentinel result. -/
theorem fetch_defendants_first_match_witness :
    fetch_defendants [⟨"1", some "Z", none, none⟩] "X" = ⟨none, none, none, none⟩ :=
  (fetch_defendants_first_match [⟨"1", some "Z", none, none⟩] "X").1 (by decide)

/-! ## `determine_llcode` -/

/-- The function `determine_llcode(service_type, person_served, d1, d2, d3)`:
`N`/`S`/`P` map to `XSNG`/`XSUBS`/`XPS` suffixed with the 1-based index
of the person served in `[d1, d2, d3]`; anything else yields `None`. -/
def determine_llcode (service_type person_served : String)
    (d1 d2 d3 : Option String) : Option String :=
  if service_type = "N" then
    if some person_served ∈ [d1, d2, d3] then
      some ("XSNG" ++ toString (pyIndex (some person_served) [d1, d2, d3] + 1))
    else none
  else if service_type = "S" then
    if some person_served ∈ [d1, d2, d3] then
      some ("XSUBS" ++ toString (pyIndex (some person_served) [d1, d2, d3] + 1))
    else none
  else if service_type = "P" then
    if some person_served ∈ [d1, d2, d3] then
      some ("XPS" ++ toString (pyIndex (some person_served) [d1, d2, d3] + 1))
    else none
  else none

/-- C1: when the person served sits in slot `i` (0-based here, with all
earlier slots not matching) and the service type is `N`, `S` or `P`,
`determine_llcode` returns the corresponding code with the 1-based slot
number appended; slots are checked in order 1, 2, 3 and the lowest wins. -/
theorem determine_llcode_slot (d1 d2 d3 : Option String) (ps st : String) (i : Nat)
    (hlt : i < 3)
    (hi : [d1, d2, d3].get? i = some (some ps))
    (hmin : ∀ j, j < i → [d1, d2, d3].get? j ≠ some (some ps))
    (hst : st = "N" ∨ st = "S" ∨ st = "P") :
    determine_llcode st ps d1 d2 d3 =
      some ((if st = "N" then "XSNG" else if st = "S" then "XSUBS" else "XPS")
             ++ toString (i + 1)) := by
  have hmem : some ps ∈ [d1, d2, d3] := by
    interval_cases i
    · simp [List.get?] at hi
      simp [hi]
    · simp [List.get?] at hi
      simp [hi]
    · simp [List.get?] at hi
      simp [hi]
  have hidx : pyIndex (some ps) [d1, d2, d3] = i := by
    interval_cases i
    · simp [List.get?] at hi
      simp [pyIndex, hi]
    · simp [List.get?] at hi
      have h0 : d1 ≠ some ps := by
        intro h
        exact hmin 0 (by omega) (by simp [List.get?, h])
      simp [pyIndex, hi, h0]
    · simp [List.get?] at hi
      have h0 : d1 ≠ some ps := by
        intro h
        exact hmin 0 (by omega) (by simp [List.get?, h])
      have h1 : d2 ≠ some ps := by
        intro h
        exact hmin 1 (by omega) (by simp [List.get?, h])
      simp [pyIndex, hi, h0, h1]
  rcases hst with h | h | h <;> subst h <;>
    simp [determine_llcode, hmem, hidx]

/-- Witness for C1: defendants `[A, B, C]`, person served `B`, service
type `S` gives `XSUBS2`. -/
theorem determine_llcode_slot_witness :
    determine_llcode "S" "B" (some "A") (some "B") (some "C") = some "XSUBS2" := by
  have h := determine_llcode_slot (some "A") (some "B") (some "C") "B" "S" 1
    (by omega) (by decide)
    (by intro j hj; interval_cases j; decide)
    (Or.inr (Or.inl rfl))
  rw [h]; decide

/-! ## Spreadsheet model and `process_excel_file` -/

/-- A spreadsheet row with the fields `process_excel_file` reads
(`row.get('Note', '')` defaults the note to the empty string). -/
structure XRow where
  fileNo : String
  personServed : String
  serviceType : String
  dateOfService : String
  address : String
  note : String
  documentCategory : String
deriving DecidableEq, Repr

/-- An entry of `output_data_1`:
`[file_no, llcode, person_served, date_of_service, address, service_type]`. -/
structure Out1 where
  fileNo : String
  llcode : String
  personServed : String
  dateOfService : String
  address : String
  serviceType : String
deriving DecidableEq, Repr

/-- An entry of `output_data_2`:
`[109, 'D', file_no, 'XNSRV', 'MWC', cleaned_notes, '#']`. -/
structure Out2 where
  col1 : Nat
  col2 : String
  fileNo : String
  col4 : String
  col5 : String
  notes : String
  col7 : String
deriving DecidableEq, Repr

/-- Python `notes.replace('\n', ' ').replace('\r', ' ')`. -/
def cleanNote (s : String) : String :=
  ⟨s.toList.map (fun c => if c = '\n' then ' ' else if c = '\r' then ' ' else c)⟩

/-- The row loop of `process_excel_file`: dedup on the
`(file_no, person_served)` pair, database lookup, classification, and
the two appends.  `processed` is the `processed_pairs` set. -/
def processLoop (db : List MasterRow) :
    List XRow → List (String × String) → List Out1 × List Out2
  | [], _ => ([], [])
  | row :: rest, processed =>
    if (row.fileNo, row.personServed) ∈ processed then
      processLoop db rest processed
    else if truthyOpt (fetch_defendants db row.personServed).fileNo then
      if truthyOpt (determine_llcode row.serviceType row.personServed
          (fetch_defendants db row.personServed).d1
          (fetch_defendants db row.personServed).d2
          (fetch_defendants db row.personServed).d3) then
        ((⟨row.fileNo,
            (determine_llcode row.serviceType row.personServed
              (fetch_defendants db row.personServed).d1
              (fetch_defendants db row.personServed).d2
              (fetch_defendants db row.personServed).d3).getD "",
            row.personServed, row.dateOfService, row.address, row.serviceType⟩ : Out1) ::
            (processLoop db rest ((row.fileNo, row.personServed) :: processed)).1,
         (⟨109, "D", row.fileNo, "XNSRV", "MWC", cleanNote row.note, "#"⟩ : Out2) ::
            (processLoop db rest ((row.fileNo, row.personServed) :: processed)).2)
      else processLoop db rest processed
    else processLoop db rest processed

/-- A loaded spreadsheet: its column names (as read, before stripping)
and its rows. -/
structure Sheet where
  columns : List String
  rows : List XRow

/-- The function `process_excel_file`: strip column names, bail out with two empty
lists when `Document Category` is absent, filter to
`Summons and Complaint` rows, then run the classification loop. -/
def process_excel_file (db : List MasterRow) (sheet : Sheet) :
    List Out1 × List Out2 :=
  if "Document Category" ∈ sheet.columns.map pyStrip then
    processLoop db
      (sheet.rows.filter (fun r => r.documentCategory = "Summons and Complaint")) []
  else ([], [])

/-! ## Characterizations of the classification loop -/

/-- A row is accepted by the loop body (independently of the dedup set):
the lookup matched with a truthy `FileNo` and a code was produced. -/
def acceptRow (db : List MasterRow) (r : XRow) : Bool :=
  truthyOpt (fetch_defendants db r.personServed).fileNo &&
  truthyOpt (determine_llcode r.serviceType r.personServed
    (fetch_defendants db r.personServed).d1
    (fetch_defendants db r.personServed).d2
    (fetch_defendants db r.personServed).d3)

/-- The `output_data_1` entry an accepted row produces. -/
def out1Of (db : List MasterRow) (r : XRow) : Out1 :=
  ⟨r.fileNo,
   (determine_llcode r.serviceType r.personServed
     (fetch_defendants db r.personServed).d1
     (fetch_defendants db r.personServed).d2
     (fetch_defendants db r.personServed).d3).getD "",
   r.personServed, r.dateOfService, r.address, r.serviceType⟩

/-- The `output_data_2` entry an accepted row produces. -/
def out2Of (r : XRow) : Out2 :=
  ⟨109, "D", r.fileNo, "XNSRV", "MWC", cleanNote r.note, "#"⟩

/-- Keep only the first row of each `(file_no, person_served)` pair,
relative to an initial set of already-seen pairs. -/
def firstPerPair : List XRow → List (String × String) → List XRow
  | [], _ => []
  | r :: rs, seen =>
    if (r.fileNo, r.personServed) ∈ seen then firstPerPair rs seen
    else r :: firstPerPair rs ((r.fileNo, r.personServed) :: seen)

/-- The rows of a sheet that make it into the outputs: category filter,
acceptance filter, then first-of-each-pair. -/
def acceptedRows (db : List MasterRow) (sheet : Sheet) : List XRow :=
  firstPerPair
    ((sheet.rows.filter (fun r => r.documentCategory = "Summons and Complaint")).filter
      (acceptRow db)) []

/-- The loop is exactly: filter to accepted rows, keep the first row of
each pair, and map out the two output shapes. -/
theorem processLoop_eq_firstPerPair (db : List MasterRow) :
    ∀ (rows : List XRow) (processed : List (String × String)),
      processLoop db rows processed =
        ((firstPerPair (rows.filter (acceptRow db)) processed).map (out1Of db),
         (firstPerPair (rows.filter (acceptRow db)) processed).map out2Of) := by
  intro rows
  induction rows with
  | nil => intro processed; simp [processLoop, firstPerPair]
  | cons row rest ih =>
    intro processed
    by_cases hacc : acceptRow db row
    · have htr : truthyOpt (fetch_defendants db row.personServed).fileNo = true :=
        (Bool.and_eq_true_iff.mp hacc).1
      have hll : truthyOpt (determine_llcode row.serviceType row.personServed
          (fetch_defendants db row.personServed).d1
          (fetch_defendants db row.personServed).d2
          (fetch_defendants db row.personServed).d3) = true :=
        (Bool.and_eq_true_iff.mp hacc).2
      by_cases hmem : (row.fileNo, row.personServed) ∈ processed
      · simp [processLoop, firstPerPair, hmem, hacc, ih]
      · simp [processLoop, firstPerPair, hmem, hacc, htr, hll, ih, out1Of, out2Of]
    · have hsk : (truthyOpt (fetch_defendants db row.personServed).fileNo = false) ∨
          (truthyOpt (determine_llcode row.serviceType row.personServed
            (fetch_defendants db row.personServed).d1
            (fetch_defendants db row.personServed).d2
            (fetch_defendants db row.personServed).d3) = false) := by
        by_contra hc
        push_neg at hc
        exact hacc (Bool.and_eq_true_iff.mpr
          ⟨Bool.of_not_eq_false hc.1, Bool.of_not_eq_false hc.2⟩)
      by_cases hmem : (row.fileNo, row.personServed) ∈ processed
      · simp [processLoop, hmem, hacc, ih]
      · rcases hsk with h | h
        · simp [processLoop, hmem, hacc, h, ih]
        · simp [processLoop, hmem, hacc, h, ih]

/-- The pairs of the rows `firstPerPair` keeps are distinct and disjoint
from the initial seen-set. -/
theorem firstPerPair_pairs_nodup :
    ∀ (l : List XRow) (seen : List (String × String)),
      ((firstPerPair l seen).map (fun r => (r.fileNo, r.personServed))).Nodup ∧
      ∀ p ∈ (firstPerPair l seen).map (fun r => (r.fileNo, r.personServed)), p ∉ seen := by
  intro l
  induction l with
  | nil => intro seen; simp [firstPerPair]
  | cons r rs ih =>
    intro seen
    by_cases h : (r.fileNo, r.personServed) ∈ seen
    · simpa [firstPerPair, h] using ih seen
    · have ih' := ih ((r.fileNo, r.personServed) :: seen)
      constructor
      · simp only [firstPerPair, if_neg h, List.map_cons, List.nodup_cons]
        refine ⟨fun hc => (ih'.2 _ hc) (by simp), ih'.1⟩
      · intro p hp
        simp only [firstPerPair, if_neg h, List.map_cons, List.mem_cons] at hp
        rcases hp with rfl | hp
        · exact h
        · intro hseen
          exact (ih'.2 p hp) (List.mem_cons_of_mem _ hseen)

/-- C2: a service type outside `{N, S, P}`, or a person served matching
none of the three defendant slots returned by the lookup, yields no
code from `determine_llcode`, and the classification loop adds nothing
to either output for that row. -/
theorem unclassified_row_skipped (db : List MasterRow) (row : XRow) (rest : List XRow)
    (processed : List (String × String))
    (h : row.serviceType ∉ (["N", "S", "P"] : List String) ∨
         some row.personServed ∉ [(fetch_defendants db row.personServed).d1,
                                  (fetch_defendants db row.personServed).d2,
                                  (fetch_defendants db row.personServed).d3]) :
    determine_llcode row.serviceType row.personServed
        (fetch_defendants db row.personServed).d1
        (fetch_defendants db row.personServed).d2
        (fetch_defendants db row.personServed).d3 = none ∧
    processLoop db (row :: rest) processed = processLoop db rest processed := by
  have hnone : determine_llcode row.serviceType row.personServed
      (fetch_defendants db row.personServed).d1
      (fetch_defendants db row.personServed).d2
      (fetch_defendants db row.personServed).d3 = none := by
    rcases h with h | h
    · simp only [List.mem_cons, List.not_mem_nil, or_false, not_or] at h
      simp [determine_llcode, h.1, h.2.1, h.2.2]
    · simp [determine_llcode, h]
  refine ⟨hnone, ?_⟩
  by_cases hmem : (row.fileNo, row.personServed) ∈ processed
  · simp [processLoop, hmem]
  · by_cases htr : truthyOpt (fetch_defendants db row.personServed).fileNo
    · simp [processLoop, hmem, htr, hnone, truthyOpt]
    · simp [processLoop, hmem, htr]

/-- Witness for C2: service type `X` with a matching defendant is
still excluded. -/
theorem unclassified_row_skipped_witness :
    determine_llcode "X" "B"
        (fetch_defendants [⟨"7", some "B", none, none⟩] "B").d1
        (fetch_defendants [⟨"7", some "B", none, none⟩] "B").d2
        (fetch_defendants [⟨"7", some "B", none, none⟩] "B").d3 = none ∧
    processLoop [⟨"7", some "B", none, none⟩]
        [⟨"1", "B", "X", "d", "a", "", "Summons and Complaint"⟩] [] =
      processLoop [⟨"7", some "B", none, none⟩] [] [] :=
  unclassified_row_skipped [⟨"7", some "B", none, none⟩]
    ⟨"1", "B", "X", "d", "a", "", "Summons and Complaint"⟩ [] []
    (Or.inl (by decide))

/-- C4: a row whose person served matches no case is skipped with the
dedup set unchanged — the loop continues exactly as if the row were
absent, so a later duplicate pair is reprocessed rather than
short-circuited. -/
theorem unmatched_row_not_marked (db : List MasterRow) (row : XRow) (rest : List XRow)
    (processed : List (String × String))
    (h : ∀ q ∈ queryRows db, rowMatches row.personServed q = false) :
    fetch_defendants db row.personServed = ⟨none, none, none, none⟩ ∧
    processLoop db (row :: rest) processed = processLoop db rest processed := by
  have hfind : (queryRows db).find? (rowMatches row.personServed) = none := by
    rw [List.find?_eq_none]
    intro x hx
    simp [h x hx]
  have hs : fetch_defendants db row.personServed = ⟨none, none, none, none⟩ := by
    simp [fetch_defendants, hfind]
  refine ⟨hs, ?_⟩
  by_cases hmem : (row.fileNo, row.personServed) ∈ processed
  · simp [processLoop, hmem]
  · simp [processLoop, hmem, hs, truthyOpt]

/-- Witness for C4: with a database that never lists `B`, the row for
`B` is skipped and the dedup set is left alone. -/
theorem unmatched_row_not_marked_witness :
    fetch_defendants [⟨"1", some "Z", none, none⟩] "B" = ⟨none, none, none, none⟩ ∧
    processLoop [⟨"1", some "Z", none, none⟩]
        [⟨"1", "B", "N", "d", "a", "", "Summons and Complaint"⟩] [] =
      processLoop [⟨"1", some "Z", none, none⟩] [] [] :=
  unmatched_row_not_marked [⟨"1", some "Z", none, none⟩]
    ⟨"1", "B", "N", "d", "a", "", "Summons and Complaint"⟩ [] []
    (by decide)

/-- C7: a sheet without a (stripped) `Document Category` column yields
two empty row-sets; and the output only depends on the rows whose
`Document Category` is exactly `Summons and Complaint` — removing all
other rows changes nothing. -/
theorem document_category_filter (db : List MasterRow) (sheet : Sheet) :
    ("Document Category" ∉ sheet.columns.map pyStrip →
        process_excel_file db sheet = ([], [])) ∧
    process_excel_file db sheet =
      process_excel_file db
        ⟨sheet.columns,
         sheet.rows.filter (fun r => r.documentCategory = "Summons and Complaint")⟩ := by
  constructor
  · intro h
    simp [process_excel_file, h]
  · by_cases h : "Document Category" ∈ sheet.columns.map pyStrip
    · simp [process_excel_file, h, List.filter_filter]
    · simp [process_excel_file, h]

/-- Witness for C7: a sheet whose only column is `Foo` produces two
empty row-sets. -/
theorem document_category_filter_witness :
    process_excel_file [] ⟨["Foo"], [⟨"1", "B", "N", "d", "a", "", "Summons and Complaint"⟩]⟩ =
      ([], []) :=
  (document_category_filter []
    ⟨["Foo"], [⟨"1", "B", "N", "d", "a", "", "Summons and Complaint"⟩]⟩).1 (by decide)

/-- C10: the accepted row's entries in both outputs carry the
spreadsheet row's `FileNo`, not the matched case's. -/
theorem output_uses_sheet_fileno (db : List MasterRow) (row : XRow) (rest : List XRow)
    (processed : List (String × String))
    (hmem : (row.fileNo, row.personServed) ∉ processed)
    (htr : truthyOpt (fetch_defendants db row.personServed).fileNo = true)
    (hll : truthyOpt (determine_llcode row.serviceType row.personServed
        (fetch_defendants db row.personServed).d1
        (fetch_defendants db row.personServed).d2
        (fetch_defendants db row.personServed).d3) = true) :
    ((processLoop db (row :: rest) processed).1.head?).map Out1.fileNo = some row.fileNo ∧
    ((processLoop db (row :: rest) processed).2.head?).map Out2.fileNo = some row.fileNo := by
  simp [processLoop, hmem, htr, hll]

/-- Witness for C10: the matched case's `FileNo` is `999` but both
outputs carry the spreadsheet's `123`. -/
theorem output_uses_sheet_fileno_witness :
    ((processLoop [⟨"999", some "B", none, none⟩]
        [⟨"123", "B", "N", "d", "a", "", "Summons and Complaint"⟩] []).1.head?).map
        Out1.fileNo = some "123" ∧
    ((processLoop [⟨"999", some "B", none, none⟩]
        [⟨"123", "B", "N", "d", "a", "", "Summons and Complaint"⟩] []).2.head?).map
        Out2.fileNo = some "123" ∧
    (fetch_defendants [⟨"999", some "B", none, none⟩] "B").fileNo = some "999" := by
  have h := output_uses_sheet_fileno [⟨"999", some "B", none, none⟩]
    ⟨"123", "B", "N", "d", "a", "", "Summons and Complaint"⟩ [] []
    (by simp) (by decide) (by decide)
  exact ⟨h.1, h.2, by decide⟩

/-- C3 (counterexample): two rows share the pair `("1", "B")`; the first
(service type `X`) is rejected, and it is the second row — its date
`d2`, address `a2`, type `S` — that appears in both outputs, so it is
not always the first row in file order that appears. -/
theorem dedup_first_in_file_order_counterexample :
    ((⟨["Document Category"],
       [⟨"1", "B", "X", "d1", "a1", "", "Summons and Complaint"⟩,
        ⟨"1", "B", "S", "d2", "a2", "", "Summons and Complaint"⟩]⟩ : Sheet).rows.map
      (fun r => (r.fileNo, r.personServed))) = [("1", "B"), ("1", "B")] ∧
    process_excel_file [⟨"7", some "B", none, none⟩]
        ⟨["Document Category"],
         [⟨"1", "B", "X", "d1", "a1", "", "Summons and Complaint"⟩,
          ⟨"1", "B", "S", "d2", "a2", "", "Summons and Complaint"⟩]⟩ =
      ([⟨"1", "XSUBS1", "B", "d2", "a2", "S"⟩],
       [⟨109, "D", "1", "XNSRV", "MWC", "", "#"⟩]) := by
  decide

/-- C3 (amended): each `(file_no, person_served)` pair contributes at
most one row to each output row-set, and the rows that appear are
exactly the first accepted row (in file order) of each pair — the first
row of the filtered sheet that matches a case and yields a code. -/
theorem dedup_first_accepted (db : List MasterRow) (sheet : Sheet)
    (h : "Document Category" ∈ sheet.columns.map pyStrip) :
    process_excel_file db sheet =
      ((acceptedRows db sheet).map (out1Of db), (acceptedRows db sheet).map out2Of) ∧
    ((acceptedRows db sheet).map (fun r => (r.fileNo, r.personServed))).Nodup := by
  refine ⟨?_, (firstPerPair_pairs_nodup _ _).1⟩
  simp only [process_excel_file, h, if_pos, acceptedRows]
  exact processLoop_eq_firstPerPair db _ []

/-- Witness for C3 (amended), on the counterexample input: the outputs
are the mapped accepted rows and their pairs are distinct. -/
theorem dedup_first_accepted_witness :
    process_excel_file [⟨"7", some "B", none, none⟩]
        ⟨["Document Category"],
         [⟨"1", "B", "X", "d1", "a1", "", "Summons and Complaint"⟩,
          ⟨"1", "B", "S", "d2", "a2", "", "Summons and Complaint"⟩]⟩ =
      ((acceptedRows [⟨"7", some "B", none, none⟩]
          ⟨["Document Category"],
           [⟨"1", "B", "X", "d1", "a1", "", "Summons and Complaint"⟩,
            ⟨"1", "B", "S", "d2", "a2", "", "Summons and Complaint"⟩]⟩).map
        (out1Of [⟨"7", some "B", none, none⟩]),
       (acceptedRows [⟨"7", some "B", none, none⟩]
          ⟨["Document Category"],
           [⟨"1", "B", "X", "d1", "a1", "", "Summons and Complaint"⟩,
            ⟨"1", "B", "S", "d2", "a2", "", "Summons and Complaint"⟩]⟩).map out2Of) ∧
    ((acceptedRows [⟨"7", some "B", none, none⟩]
        ⟨["Document Category"],
         [⟨"1", "B", "X", "d1", "a1", "", "Summons and Complaint"⟩,
          ⟨"1", "B", "S", "d2", "a2", "", "Summons and Complaint"⟩]⟩).map
      (fun r => (r.fileNo, r.personServed))).Nodup :=
  dedup_first_accepted [⟨"7", some "B", none, none⟩]
    ⟨["Document Category"],
     [⟨"1", "B", "X", "d1", "a1", "", "Summons and Complaint"⟩,
      ⟨"1", "B", "S", "d2", "a2", "", "Summons and Complaint"⟩]⟩ (by decide)

/-! ## `process_xjmtr` -/

/-- The loop body of `process_xjmtr`: for each directory entry whose
lowered name ends in `.pdf` and contains `judgment`, emit
`"<fileno>\tXJMTR"` when `filename.split('_')[0]` is all digits. -/
def xjmtrLoop : List String → List String
  | [] => []
  | f :: rest =>
    if pyEndsWith (pyLower f) ".pdf" && pyContains (pyLower f) "judgment" then
      if pyIsdigit ⟨(pySplitChar '_' f.toList).getD 0 []⟩ then
        ((⟨(pySplitChar '_' f.toList).getD 0 []⟩ : String) ++ "\tXJMTR") :: xjmtrLoop rest
      else xjmtrLoop rest
    else xjmtrLoop rest

/-- The function `process_xjmtr`, as the lines written to `xjmtr.txt`: the header
first, then the loop over the directory listing. -/
def process_xjmtr (files : List String) : List String :=
  "FILENO\tLLCODE" :: xjmtrLoop files

/-- Lemma: `pySplitChar` never returns the empty list (Python `split` always
yields at least one piece). -/
theorem pySplitChar_ne_nil (sep : Char) : ∀ l, pySplitChar sep l ≠ [] := by
  intro l
  induction l with
  | nil => simp [pySplitChar]
  | cons c cs ih =>
    by_cases h : c = sep
    · simp [pySplitChar, h]
    · simp only [pySplitChar, if_neg h]
      cases hcs : pySplitChar sep cs with
      | nil => simp
      | cons p ps => simp

/-- The first piece of a split is the prefix up to the separator. -/
theorem pySplitChar_getD_zero (sep : Char) :
    ∀ l, (pySplitChar sep l).getD 0 [] = l.takeWhile (· ≠ sep) := by
  intro l
  induction l with
  | nil => simp [pySplitChar]
  | cons c cs ih =>
    by_cases h : c = sep
    · subst h
      simp [pySplitChar, List.takeWhile_cons]
    · simp only [pySplitChar, if_neg h]
      cases hcs : pySplitChar sep cs with
      | nil => exact absurd hcs (pySplitChar_ne_nil sep cs)
      | cons p ps =>
        rw [hcs] at ih
        simp only [List.getD_cons_zero] at ih
        simp [List.takeWhile_cons, h, ih]

/-- Unfolding `pySplitChar` when the head is the separator. -/
theorem pySplitChar_cons_self (sep : Char) (cs : List Char) :
    pySplitChar sep (sep :: cs) = [] :: pySplitChar sep cs := by
  simp [pySplitChar]

/-- Unfolding `pySplitChar` when the head is not the separator. -/
theorem pySplitChar_cons_ne (sep c : Char) (cs p : List Char)
    (ps : List (List Char)) (h : c ≠ sep) (hcs : pySplitChar sep cs = p :: ps) :
    pySplitChar sep (c :: cs) = (c :: p) :: ps := by
  simp only [pySplitChar, if_neg h, hcs]

/-- Lemma: `pySplitChar` of the tail is always available in cons form. -/
theorem pySplitChar_exists_cons (sep : Char) (cs : List Char) :
    ∃ p ps, pySplitChar sep cs = p :: ps := by
  cases hcs : pySplitChar sep cs with
  | nil => exact absurd hcs (pySplitChar_ne_nil sep cs)
  | cons p ps => exact ⟨p, ps, rfl⟩

/-- A split has more than one piece exactly when the separator occurs. -/
theorem pySplitChar_one_lt_length (sep : Char) :
    ∀ l, 1 < (pySplitChar sep l).length ↔ sep ∈ l := by
  intro l
  induction l with
  | nil => simp [pySplitChar]
  | cons c cs ih =>
    by_cases h : c = sep
    · subst h
      rw [pySplitChar_cons_self]
      have hpos : 0 < (pySplitChar c cs).length :=
        List.length_pos.mpr (pySplitChar_ne_nil c cs)
      simp only [List.length_cons, List.mem_cons]
      constructor
      · intro _; simp
      · intro _; omega
    · obtain ⟨p, ps, hcs⟩ := pySplitChar_exists_cons sep cs
      rw [pySplitChar_cons_ne sep c cs p ps h hcs]
      rw [hcs] at ih
      simp only [List.length_cons] at ih ⊢
      rw [List.mem_cons]
      constructor
      · intro hl; exact Or.inr (ih.mp hl)
      · intro hm
        rcases hm with hm | hm
        · exact absurd hm.symm h
        · exact ih.mpr hm

/-- The second piece of a split is the segment between the first
separator and the next one (or the end). -/
theorem pySplitChar_getD_one (sep : Char) :
    ∀ l, sep ∈ l →
      (pySplitChar sep l).getD 1 [] =
        ((l.dropWhile (· ≠ sep)).tail).takeWhile (· ≠ sep) := by
  intro l
  induction l with
  | nil => intro h; simp at h
  | cons c cs ih =>
    intro hmem
    by_cases h : c = sep
    · subst h
      rw [pySplitChar_cons_self]
      simp only [List.getD_cons_succ]
      rw [pySplitChar_getD_zero]
      rw [List.dropWhile_cons, if_neg (by simp)]
      rfl
    · have hcs' : sep ∈ cs := by
        rcases List.mem_cons.mp hmem with hc | hc
        · exact absurd hc.symm h
        · exact hc
      obtain ⟨p, ps, hcs⟩ := pySplitChar_exists_cons sep cs
      rw [pySplitChar_cons_ne sep c cs p ps h hcs]
      have hih := ih hcs'
      rw [hcs] at hih
      simp only [List.getD_cons_succ, List.getD_cons_zero] at hih ⊢
      rw [List.dropWhile_cons, if_pos (by simp [h])]
      exact hih

/-- The per-entry rule of the Judgment Tagger, as the spec states it:
`.pdf` (case-insensitive) with `judgment` (case-insensitive) anywhere in
the name and an all-digit prefix before the first underscore produces
`"<fileno>\tXJMTR"`, anything else no line. -/
def xjmtrLineSpec (f : String) : Option String :=
  if pyEndsWith (pyLower f) ".pdf" && pyContains (pyLower f) "judgment" &&
      pyIsdigit ⟨f.toList.takeWhile (· ≠ '_')⟩ then
    some ((⟨f.toList.takeWhile (· ≠ '_')⟩ : String) ++ "\tXJMTR")
  else none

/-- C5: the tag file starts with the `FILENO\tLLCODE` header even for an
empty listing, and holds exactly one `"<fileno>\tXJMTR"` line per entry
whose name ends in `.pdf` (case-insensitively), contains `judgment`
(case-insensitively), and whose prefix before the first underscore is a
non-empty run of decimal digits; every other entry produces no line. -/
theorem xjmtr_header_and_lines (files : List String) :
    (process_xjmtr files).head? = some "FILENO\tLLCODE" ∧
    process_xjmtr files = "FILENO\tLLCODE" :: files.filterMap xjmtrLineSpec := by
  refine ⟨rfl, ?_⟩
  simp only [process_xjmtr, List.cons.injEq, true_and]
  induction files with
  | nil => rfl
  | cons f rest ih =>
    have hsplit : (⟨(pySplitChar '_' f.toList).getD 0 []⟩ : String) =
        ⟨f.toList.takeWhile (· ≠ '_')⟩ :=
      congrArg String.mk (pySplitChar_getD_zero '_' f.toList)
    by_cases h1 : (pyEndsWith (pyLower f) ".pdf" && pyContains (pyLower f) "judgment") = true
    · by_cases h2 : pyIsdigit ⟨f.toList.takeWhile (· ≠ '_')⟩ = true
      · have h2' : pyIsdigit ⟨(pySplitChar '_' f.toList).getD 0 []⟩ = true := by
          rw [hsplit]; exact h2
        have hcond : (pyEndsWith (pyLower f) ".pdf" && pyContains (pyLower f) "judgment" &&
            pyIsdigit ⟨f.toList.takeWhile (· ≠ '_')⟩) = true := by
          rw [Bool.and_eq_true]; exact ⟨h1, h2⟩
        have hline : xjmtrLineSpec f =
            some ((⟨f.toList.takeWhile (· ≠ '_')⟩ : String) ++ "\tXJMTR") := by
          simp only [xjmtrLineSpec, if_pos hcond]
        rw [List.filterMap_cons_some hline]
        show xjmtrLoop (f :: rest) = _
        simp only [xjmtrLoop, if_pos h1, if_pos h2']
        rw [hsplit, ih]
      · have h2' : ¬ pyIsdigit ⟨(pySplitChar '_' f.toList).getD 0 []⟩ = true := by
          rw [hsplit]; exact h2
        have hline : xjmtrLineSpec f = none := by
          simp only [xjmtrLineSpec]
          rw [if_neg]
          intro hc
          exact h2 (Bool.and_eq_true_iff.mp hc).2
        rw [List.filterMap_cons_none hline]
        simp only [xjmtrLoop, if_pos h1, if_neg h2']
        exact ih
    · have hline : xjmtrLineSpec f = none := by
        simp only [xjmtrLineSpec]
        rw [if_neg]
        intro hc
        exact h1 (Bool.and_eq_true_iff.mp hc).1
      rw [List.filterMap_cons_none hline]
      simp only [xjmtrLoop, if_neg h1]
      exact ih

/-! ## `move_files` routing -/

/-- Python `os.path.splitext` for a plain filename: split at the last dot
unless every character before it is itself a dot. -/
def splitext (p : String) : String × String :=
  match p.toList.reverse.dropWhile (· ≠ '.') with
  | [] => (p, "")
  | _ :: beforeRev =>
    if beforeRev.reverse.all (· = '.') then (p, "")
    else (⟨beforeRev.reverse⟩,
          ⟨'.' :: (p.toList.reverse.takeWhile (· ≠ '.')).reverse⟩)

/-- The per-file decision of the `move_files` loop: the destination path
of a regular file, or `none` when its extension is unrecognized and the
file is left in place.  Spreadsheets go unchanged to
`Data/<prefix before first underscore>/`; PDFs go to
`Documents/<second underscore piece, or Unknown>/` with underscores
replaced by spaces. -/
def move_files_dest (data_folder documents_folder : String) (filename : String) :
    Option String :=
  if pyLower (splitext filename).2 ∈ ([".xlsx", ".xls", ".csv"] : List String) then
    some (data_folder ++ "/" ++
      (⟨(pySplitChar '_' (splitext filename).1.toList).getD 0 []⟩ : String) ++
      "/" ++ filename)
  else if pyLower (splitext filename).2 = ".pdf" then
    some (documents_folder ++ "/" ++
      (if 1 < (pySplitChar '_' (splitext filename).1.toList).length then
        (⟨(pySplitChar '_' (splitext filename).1.toList).getD 1 []⟩ : String)
       else "Unknown") ++ "/" ++ pyReplaceChar '_' ' ' filename)
  else none

/-- C8: a `.pdf` file (case-insensitive) is moved into the `Documents`
subfolder named by the segment between the first and second underscore
of its stem — the whole remainder when there is no second underscore,
and `Unknown` when there is no underscore at all — with every
underscore of the filename replaced by a space. -/
theorem pdf_routed (data_folder documents_folder filename : String)
    (h : pyLower (splitext filename).2 = ".pdf") :
    move_files_dest data_folder documents_folder filename =
      some (documents_folder ++ "/" ++
        (if '_' ∈ (splitext filename).1.toList then
          (⟨(((splitext filename).1.toList.dropWhile (· ≠ '_')).tail).takeWhile
              (· ≠ '_')⟩ : String)
         else "Unknown") ++ "/" ++ pyReplaceChar '_' ' ' filename) := by
  have hnotdata : pyLower (splitext filename).2 ∉ ([".xlsx", ".xls", ".csv"] : List String) := by
    rw [h]; decide
  by_cases hu : '_' ∈ (splitext filename).1.toList
  · have hlen := (pySplitChar_one_lt_length '_' _).mpr hu
    have hgetd := pySplitChar_getD_one '_' _ hu
    simp only [move_files_dest]
    rw [if_neg hnotdata, if_pos h, if_pos hlen, if_pos hu, hgetd]
  · have hlen : ¬ 1 < (pySplitChar '_' (splitext filename).1.toList).length := fun hc =>
      hu ((pySplitChar_one_lt_length '_' _).mp hc)
    simp only [move_files_dest]
    rw [if_neg hnotdata, if_pos h, if_neg hlen, if_neg hu]

/-- Witness for C8: `123_judgment_2024.pdf` lands in
`Documents/judgment/123 judgment 2024.pdf`. -/
theorem pdf_routed_witness :
    move_files_dest "Data" "Documents" "123_judgment_2024.pdf" =
      some "Documents/judgment/123 judgment 2024.pdf" := by
  have h := pdf_routed "Data" "Documents" "123_judgment_2024.pdf" (by decide)
  rw [h]; decide

/-- C9: a file whose extension is none of `.xlsx`, `.xls`, `.csv`,
`.pdf` (case-insensitive) is neither moved nor renamed. -/
theorem other_ext_left_in_place (data_folder documents_folder filename : String)
    (h : pyLower (splitext filename).2 ∉
      ([".xlsx", ".xls", ".csv", ".pdf"] : List String)) :
    move_files_dest data_folder documents_folder filename = none := by
  have h1 : pyLower (splitext filename).2 ∉ ([".xlsx", ".xls", ".csv"] : List String) := by
    intro hc
    apply h
    simp only [List.mem_cons, List.not_mem_nil, or_false] at hc ⊢
    tauto
  have h2 : pyLower (splitext filename).2 ≠ ".pdf" := by
    intro hc
    exact h (by simp [hc])
  simp only [move_files_dest]
  rw [if_neg h1, if_neg h2]

/-- Witness for C9: `notes.txt` stays where it is. -/
theorem other_ext_left_in_place_witness :
    move_files_dest "Data" "Documents" "notes.txt" = none :=
  other_ext_left_in_place "Data" "Documents" "notes.txt" (by decide)

end XMapx
